import Mathlib

/-!
Shallow embedding of the synchronization-operation model
(`devito/ir/support/syncs.py`) and of the OpenMP code-emission backend
(`devito/passes/iet/specializations/openmp.py`), together with theorems
settling the specification claims about them.

Symbolic index expressions (sympy expressions in the source) are modelled
as `Option Nat` values (`none` models Python's `None`); dimensions carry
the identity of their root dimension, so that the source's
`d.root is dim.root` identity test becomes equality of root ids and
`d.root in lock.locked_dimensions` becomes membership of the root id.
-/

/-- An index expression carried symbolically by a SyncOp; `none` models
Python's `None`. -/
abbrev Idx := Option Nat

/-- A dimension of a discretized object. `rootId` identifies the root
dimension (`d.root` in the source); a root dimension has `rootId = id`. -/
structure Dimension where
  id : Nat
  rootId : Nat
deriving DecidableEq

/-- A discrete function (a storage object) with its ordered dimensions. -/
structure DFunction where
  id : Nat
  dimensions : List Dimension
deriving DecidableEq

/-- A lock abstraction: the dimensions it guards (as root-dimension ids,
`lock.locked_dimensions` in the source) and the buffered object it
protects (`lock.target`). -/
structure Lock where
  id : Nat
  lockedDimensions : List Nat
  target : DFunction
deriving DecidableEq

/-- The IR access node annotated by a SyncLock: `handle.function` is the
lock, and `handle.indices` maps each dimension (by id) to the handle's
index expression along that dimension (`handle.indices[d]`). -/
structure Handle where
  function : Lock
  indices : List (Nat × Nat)
deriving DecidableEq

/-- One entry of an `imask`: either the sentinel `FULL` (from
`devito.data`, meaning the entire extent of the axis) or a pair
`(index, size)`. -/
inductive MaskEntry where
  | full
  | idx (i : Idx) (size : Nat)
deriving DecidableEq

/-- `WaitLock(handle)`: blocking-wait lock variant (syncs.py line 124). -/
structure WaitLock where
  handle : Handle
deriving DecidableEq

/-- `WithLock(handle, dspace)`: critical-section lock variant
(syncs.py lines 128-137); `dspace` is an opaque footprint id here. -/
structure WithLock where
  handle : Handle
  dspace : Nat
deriving DecidableEq

/-- `SyncData.__new__` fields (syncs.py lines 80-104). -/
structure SyncData where
  dim : Dimension
  size : Nat
  function : DFunction
  fetch : Idx
  ifetch : Idx
  fcond : Idx
  pfetch : Idx := none
  pcond : Idx := none
  target : Option DFunction := none
  tstore : Idx := none
deriving DecidableEq

/-- `SyncLock.size` (syncs.py lines 71-73): lock granularity is one slot. -/
def SyncLock.size : Nat := 1

/-- `WithLock.size`, inherited from `SyncLock`. -/
def WithLock.size (_ : WithLock) : Nat := SyncLock.size

/-- `SyncLock.lock` (syncs.py lines 63-65): `self.handle.function`. -/
def WithLock.lock (op : WithLock) : Lock := op.handle.function

/-- `SyncLock.target` (syncs.py lines 67-69): `self.lock.target`. -/
def WithLock.target (op : WithLock) : DFunction := op.lock.target

/-- `WithLock.imask` (syncs.py lines 139-142). -/
def WithLock.imask (op : WithLock) : List MaskEntry :=
  op.target.dimensions.map (fun d =>
    if d.rootId ∈ op.lock.lockedDimensions
    then MaskEntry.idx (op.handle.indices.lookup d.id) op.size
    else MaskEntry.full)

/-- `SyncData.dimensions` (syncs.py lines 114-116): `self.function.dimensions`. -/
def SyncData.dimensions (s : SyncData) : List Dimension := s.function.dimensions

/-- `FetchUpdate.imask` (syncs.py lines 145-150). -/
def FetchUpdate.imask (s : SyncData) : List MaskEntry :=
  s.dimensions.map (fun d =>
    if d.rootId = s.dim.rootId then MaskEntry.idx s.tstore s.size else MaskEntry.full)

/-- `PrefetchUpdate.imask` (syncs.py lines 153-158). -/
def PrefetchUpdate.imask (s : SyncData) : List MaskEntry :=
  s.dimensions.map (fun d =>
    if d.rootId = s.dim.rootId then MaskEntry.idx s.tstore s.size else MaskEntry.full)

/-- `FetchPrefetch.iimask` (syncs.py lines 163-165). -/
def FetchPrefetch.iimask (s : SyncData) : List MaskEntry :=
  s.dimensions.map (fun d =>
    if d.rootId = s.dim.rootId then MaskEntry.idx s.ifetch s.size else MaskEntry.full)

/-- `FetchPrefetch.pimask` (syncs.py lines 167-169). -/
def FetchPrefetch.pimask (s : SyncData) : List MaskEntry :=
  s.dimensions.map (fun d =>
    if d.rootId = s.dim.rootId then MaskEntry.idx s.fetch s.size else MaskEntry.full)

/-- `FetchPrefetch.imask` (syncs.py lines 171-173). -/
def FetchPrefetch.imask (s : SyncData) : List MaskEntry :=
  s.dimensions.map (fun d =>
    if d.rootId = s.dim.rootId then MaskEntry.idx s.pfetch s.size else MaskEntry.full)

/-- `Delete.imask` (syncs.py lines 180-185). -/
def Delete.imask (s : SyncData) : List MaskEntry :=
  s.dimensions.map (fun d =>
    if d.rootId = s.dim.rootId then MaskEntry.idx s.fetch s.size else MaskEntry.full)

/-- A SyncOp: the variant tag models the Python class, structural equality
(`__eq__` is type plus ordered args, syncs.py lines 37-41) is the derived
`DecidableEq`. -/
inductive SyncOp where
  | waitLock (op : WaitLock)
  | withLock (op : WithLock)
  | fetchUpdate (op : SyncData)
  | prefetchUpdate (op : SyncData)
  | fetchPrefetch (op : SyncData)
  | waitPrefetch (op : SyncData)
  | delete (op : SyncData)
deriving DecidableEq

/-- `is_WaitLock` class flag (syncs.py lines 23, 125). -/
def SyncOp.is_WaitLock : SyncOp → Bool
  | .waitLock _ => true
  | _ => false

/-- `is_WithLock` class flag (syncs.py lines 24, 130). -/
def SyncOp.is_WithLock : SyncOp → Bool
  | .withLock _ => true
  | _ => false

/-- A sync map: synchronized-object key (by id) to ordered op sequence.
Python dicts are insertion-ordered with unique keys; the association list
preserves order, and uniqueness of keys is an explicit hypothesis where
needed. -/
abbrev SyncMap := List (Nat × List SyncOp)

/-- First-binding association-list lookup: the dict access `m[k]`. -/
def lookupMap (m : SyncMap) (k : Nat) : Option (List SyncOp) :=
  match m with
  | [] => none
  | p :: ps => if p.1 = k then some p.2 else lookupMap ps k

/-- The keys of a sync map, in order. -/
def mapKeys (m : SyncMap) : List Nat := m.map Prod.fst

/-- Modelled from the spec: `devito.tools.filter_ordered` (imported by
syncs.py but not part of the provided sources) — order-preserving
deduplication, keeping only the first occurrence of each element
("purely first-seen filtering"). `seen` is the set of already-kept
elements. -/
def filter_ordered_aux {α : Type} [DecidableEq α] : List α → List α → List α
  | _, [] => []
  | seen, x :: xs =>
    if x ∈ seen then filter_ordered_aux seen xs
    else x :: filter_ordered_aux (x :: seen) xs

/-- Modelled from the spec: `devito.tools.filter_ordered` with an empty
seen-set. -/
def filter_ordered {α : Type} [DecidableEq α] (l : List α) : List α :=
  filter_ordered_aux [] l

/-- `syncs[k].extend(v)` on an insertion-ordered `defaultdict(list)`
(syncs.py lines 194-197): extend the binding if the key is present,
otherwise append a fresh binding at the end. -/
def mergeInto (acc : SyncMap) (k : Nat) (v : List SyncOp) : SyncMap :=
  if k ∈ mapKeys acc then
    acc.map (fun p => if p.1 = k then (p.1, p.2 ++ v) else p)
  else acc ++ [(k, v)]

/-- The inner loop `for k, v in _dict.items(): syncs[k].extend(v)`. -/
def mergeOne (acc : SyncMap) (m : SyncMap) : SyncMap :=
  m.foldl (fun a p => mergeInto a p.1 p.2) acc

/-- The outer loop `for _dict in args` (syncs.py lines 194-197). -/
def mergeMaps (args : List SyncMap) : SyncMap :=
  args.foldl mergeOne []

/-- The validation test (syncs.py lines 201-205): a key's final op
sequence has both WaitLock and WithLock ops. -/
def hasLockConflict (v : List SyncOp) : Bool :=
  let waitlocks := v.filter SyncOp.is_WaitLock
  let withlocks := v.filter SyncOp.is_WithLock
  !waitlocks.isEmpty && !withlocks.isEmpty

/-- Result of `normalize_syncs`: Python's bare `return` (None), a normal
return, or a raised `ValueError` with its message. -/
inductive NormResult where
  | noneRes
  | ok (m : SyncMap)
  | err (msg : String)
deriving DecidableEq

/-- `normalize_syncs` (syncs.py lines 188-209). -/
def normalize_syncs (args : List SyncMap) : NormResult :=
  match args with
  | [] => NormResult.noneRes
  | [m] => NormResult.ok m
  | _ =>
    let merged := mergeMaps args
    let syncs := merged.map (fun p => (p.1, filter_ordered p.2))
    if syncs.any (fun p => hasLockConflict p.2)
    then NormResult.err "Incompatible SyncOps"
    else NormResult.ok syncs

/-!
Embedding of the OpenMP iteration emitter
(`devito/passes/iet/specializations/openmp.py`). Directive headers are
modelled as the strings handed to `cgen.Pragma`; keyword arguments of
`OpenMPIteration._make_construct` / `_make_clauses` are modelled as a
structure whose field defaults are the Python kwarg defaults.
-/

/-- The `chunk_size` keyword argument: Python `None` (absent), the literal
`False` (suppress the schedule clause), or a number. -/
inductive ChunkSize where
  | unset
  | disabled
  | val (n : Nat)
deriving DecidableEq

/-- Python `chunk_size or 1` (`0` and `None` are falsy). Only reached when
`chunk_size is not False`, so `disabled` is arbitrary here. -/
def ChunkSize.orOne : ChunkSize → Nat
  | .unset => 1
  | .disabled => 1
  | .val 0 => 1
  | .val n => n

/-- Python `x or d` on an optional number (`None` and `0` are falsy). -/
def pyOrNat (o : Option Nat) (d : Nat) : Nat :=
  match o with
  | none => d
  | some 0 => d
  | some n => n

/-- Python `x or d` on an optional string (`None` and `""` are falsy). -/
def pyOrStr (o : Option String) (d : String) : String :=
  match o with
  | none => d
  | some s => if s.isEmpty then d else s

/-- One index of a reduction target: a constant (`k.is_Number`) or a
symbolic index. -/
inductive RedIndex where
  | num (k : Int)
  | sym (s : String)
deriving DecidableEq

/-- A reduction target: a scalar (emitted as `str(i)`) or an array element
access `i` with, per axis, the pair of its index `k` and the rendered
extent `f._C_get_field(FULL, d).size` of that axis. -/
inductive RedTarget where
  | scalar (s : String)
  | indexed (name : String) (axes : List (RedIndex × String))
deriving DecidableEq

/-- One per-axis bound of a reduction argument (openmp.py lines 116-122):
`'[%s]' % k` for a constant index, `'[0:%s]' % size` otherwise. -/
def redBound : RedIndex × String → String
  | (RedIndex.num k, _) => "[" ++ toString k ++ "]"
  | (RedIndex.sym _, ext) => "[0:" ++ ext ++ "]"

/-- One reduction argument (openmp.py lines 112-125): `str(i)` for a
scalar, `'%s%s' % (i.name, ''.join(bounds))` for an array access. -/
def redArg : RedTarget → String
  | RedTarget.scalar s => s
  | RedTarget.indexed name axes => name ++ String.join (axes.map redBound)

/-- Keyword arguments consumed by `OpenMPIteration._make_construct` and
`_make_clauses`, with their Python defaults (openmp.py lines 90, 97-98).
`nthreads` is the rendered name of the thread-count symbol; `reduction`
is the optional list of reduction targets. -/
structure IterKwargs where
  parallel : Bool := false
  ncollapse : Option Nat := none
  chunk_size : ChunkSize := ChunkSize.unset
  nthreads : Option String := none
  reduction : Option (List RedTarget) := none
  schedule : Option String := none
deriving DecidableEq

/-- `OpenMPIteration._make_construct` (openmp.py lines 89-94). -/
def OpenMPIteration.make_construct (kw : IterKwargs) : String :=
  if kw.parallel then "omp parallel for" else "omp for"

/-- `OpenMPIteration._make_clauses` (openmp.py lines 96-128), as the
ordered list built by the successive `clauses.append` calls. Python
truthiness: `if nthreads` is false for `None` (and an empty rendering);
`if reduction` is false for `None` and for an empty list. -/
def OpenMPIteration.make_clauses (kw : IterKwargs) : List String :=
  ["collapse(" ++ toString (pyOrNat kw.ncollapse 1) ++ ")"]
  ++ (match kw.chunk_size with
      | ChunkSize.disabled => []
      | c => ["schedule(" ++ pyOrStr kw.schedule "dynamic" ++ "," ++ toString c.orOne ++ ")"])
  ++ (match kw.nthreads with
      | some s => if s.isEmpty then [] else ["num_threads(" ++ s ++ ")"]
      | none => [])
  ++ (match kw.reduction with
      | some l =>
        if l.isEmpty then []
        else ["reduction(+:" ++ String.intercalate "," (l.map redArg) ++ ")"]
      | none => [])

/-- `OpenMPIteration._make_header` (openmp.py lines 79-87): the string
handed to `cgen.Pragma`, i.e. `' '.join([construct] + clauses)`. -/
def OpenMPIteration.make_header (kw : IterKwargs) : String :=
  String.intercalate " " (OpenMPIteration.make_construct kw :: OpenMPIteration.make_clauses kw)

/-- `DeviceOmpIteration._make_construct` (openmp.py lines 140-142):
a fixed construct, ignoring every keyword argument. -/
def DeviceOmpIteration.make_construct (_ : IterKwargs) : String :=
  "omp target teams distribute parallel for"

/-- `DeviceOmpIteration._make_clauses` (openmp.py lines 144-147):
`kwargs['chunk_size'] = False`, then delegate to the base class. -/
def DeviceOmpIteration.make_clauses (kw : IterKwargs) : List String :=
  OpenMPIteration.make_clauses { kw with chunk_size := ChunkSize.disabled }

/-- The header of a `DeviceOmpIteration`: the inherited `_make_header`
combined with the overridden `_make_construct` and `_make_clauses`. -/
def DeviceOmpIteration.make_header (kw : IterKwargs) : String :=
  String.intercalate " " (DeviceOmpIteration.make_construct kw :: DeviceOmpIteration.make_clauses kw)

/-- Modelled from the spec: the device clause list as section 4.4 of the
spec describes it — the collapse, thread-count and reduction clauses
exactly as the host iteration builds them, with the manual schedule/chunk
clause absent. Written out independently of
`DeviceOmpIteration.make_clauses` for comparison. -/
def specDeviceClauses (kw : IterKwargs) : List String :=
  ["collapse(" ++ toString (pyOrNat kw.ncollapse 1) ++ ")"]
  ++ (match kw.nthreads with
      | some s => if s.isEmpty then [] else ["num_threads(" ++ s ++ ")"]
      | none => [])
  ++ (match kw.reduction with
      | some l =>
        if l.isEmpty then []
        else ["reduction(+:" ++ String.intercalate "," (l.map redArg) ++ ")"]
      | none => [])

/-- A clause string is the manual schedule clause exactly when it starts
with the 9 characters `schedule(`. -/
def isScheduleClause (s : String) : Bool :=
  s.data.take 9 == "schedule(".data

/-!
Embedding of `DeviceOmpizer.initialize` (openmp.py lines 212-263). The
IET nodes appearing in the generated setup code (`Call`, `Conditional`,
`List`, `LocalExpression`) are modelled structurally; the generated code
is then evaluated by a small interpreter that resolves the runtime
conditional on the device-id parameter, yielding the statements the
entry point actually executes for a given device id.
-/

/-- A C-level scalar expression occurring in the generated setup code. -/
inductive CExpr where
  | var (s : String)
  | lit (n : Int)
  | mod (a b : CExpr)
  | callE (f : String) (args : List CExpr)

/-- An argument of a generated `Call`: a plain expression, `Byref(x)`,
or a communicator object. -/
inductive CArg where
  | expr (e : CExpr)
  | byref (s : String)
  | comm (s : String)

/-- The only condition form the initializer emits: `CondNe(a, b)`. -/
inductive Cond where
  | ne (a b : CExpr)

/-- The IET statement nodes used by the initializer: `Call`,
`LocalExpression(DummyEq(lhs, rhs))`, `Conditional` (with an optional
else branch, empty list when absent) and the `List` node with its
header/footer comment lines. -/
inductive Stmt where
  | call (f : String) (args : List CArg)
  | localExpr (lhs : String) (rhs : CExpr)
  | cond (c : Cond) (thenB : List Stmt) (elseB : List Stmt)
  | block (header : List String) (body : List Stmt) (footer : List String)

/-- A parameter of an IET callable: a communicator (`MPICommObject`) or
any other parameter. -/
inductive Param where
  | commObj (s : String)
  | plain (s : String)

/-- An `EntryFunction`: its parameter list and body. -/
structure EntryFunction where
  parameters : List Param
  body : List Stmt

/-- An IET callable handed to the `initialize` pass: the designated
`EntryFunction`, or any other node kind (handled by the `singledispatch`
default, openmp.py lines 215-217). -/
inductive IETNode where
  | entry (f : EntryFunction)
  | callable (name : String) (body : List Stmt)

/-- The name of the `DeviceID()` symbol. -/
def deviceIdName : String := "deviceid"

/-- The loop over `iet.parameters` picking the first `MPICommObject`
(openmp.py lines 226-230). -/
def findComm : List Param → Option String
  | [] => none
  | Param.commObj s :: _ => some s
  | Param.plain _ :: ps => findComm ps

/-- The `body` list built by `_initialize` for an `EntryFunction`
(openmp.py lines 232-254), depending on whether a communicator was
found among the parameters. -/
def initBody (objcomm : Option String) : List Stmt :=
  match objcomm with
  | some comm =>
    [Stmt.cond (Cond.ne (CExpr.var deviceIdName) (CExpr.lit (-1)))
      [Stmt.call "omp_set_default_device" [CArg.expr (CExpr.var deviceIdName)]]
      [Stmt.block []
        [Stmt.localExpr "rank" (CExpr.lit 0),
         Stmt.call "MPI_Comm_rank" [CArg.comm comm, CArg.byref "rank"],
         Stmt.localExpr "ngpus" (CExpr.callE "omp_get_num_devices" []),
         Stmt.call "omp_set_default_device"
           [CArg.expr (CExpr.mod (CExpr.var "rank") (CExpr.var "ngpus"))]]
        []]]
  | none =>
    [Stmt.cond (Cond.ne (CExpr.var deviceIdName) (CExpr.lit (-1)))
      [Stmt.call "omp_set_default_device" [CArg.expr (CExpr.var deviceIdName)]]
      []]

/-- The `init` List node (openmp.py lines 256-258). -/
def initNode (objcomm : Option String) : Stmt :=
  Stmt.block ["Begin of OpenMP+MPI setup"]
    (initBody objcomm)
    ["End of OpenMP+MPI setup", ""]

/-- `DeviceOmpizer.initialize` (openmp.py lines 212-263): the
`singledispatch` default returns any non-entry node unchanged with no
extra arguments; on an `EntryFunction` the generated setup is prepended
to the body (`iet._rebuild(body=(init,) + iet.body)`) and the device-id
symbol is reported back (`{'args': deviceid}`). -/
def DeviceOmpizer.initialize (iet : IETNode) : IETNode × Option String :=
  match iet with
  | IETNode.entry f =>
    (IETNode.entry
      { parameters := f.parameters,
        body := initNode (findComm f.parameters) :: f.body },
     some deviceIdName)
  | IETNode.callable n b => (IETNode.callable n b, none)

/-- Runtime value of a generated expression, given the value of the
device-id parameter. Only the device-id conditional is ever evaluated;
other symbols are irrelevant to branch selection and read as 0. -/
def evalCExpr (devid : Int) : CExpr → Int
  | CExpr.var s => if s = deviceIdName then devid else 0
  | CExpr.lit n => n
  | CExpr.mod a b => evalCExpr devid a % evalCExpr devid b
  | CExpr.callE _ _ => 0

/-- Runtime truth of a generated condition. -/
def evalCond (devid : Int) : Cond → Bool
  | Cond.ne a b => if evalCExpr devid a = evalCExpr devid b then false else true

/-- The primitive statements (calls and local declarations) a statement
list executes at runtime, for a given device-id value: conditionals are
resolved and `List` blocks flattened. -/
def execStmts (devid : Int) : List Stmt → List Stmt
  | [] => []
  | Stmt.call f a :: rest => Stmt.call f a :: execStmts devid rest
  | Stmt.localExpr l r :: rest => Stmt.localExpr l r :: execStmts devid rest
  | Stmt.cond c t e :: rest =>
    (if evalCond devid c then execStmts devid t else execStmts devid e)
      ++ execStmts devid rest
  | Stmt.block _ b _ :: rest => execStmts devid b ++ execStmts devid rest

/-!
Concrete instances used by witnesses and counterexamples.
-/

/-- A root time-like dimension. -/
def dimT : Dimension := ⟨0, 0⟩

/-- A root space dimension. -/
def dimX : Dimension := ⟨1, 1⟩

/-- A two-axis object with dimensions `(t, x)`. -/
def fnTX : DFunction := ⟨0, [dimT, dimX]⟩

/-- A one-axis object with dimension `(t)`. -/
def fnT : DFunction := ⟨1, [dimT]⟩

/-- A lock guarding the root dimension `t` of `fnTX`. -/
def lockTX : Lock := ⟨0, [0], fnTX⟩

/-- A handle on `lockTX` with indices 7 and 8 along the two axes. -/
def handleTX : Handle := ⟨lockTX, [(0, 7), (1, 8)]⟩

/-- A concrete `WithLock` op. -/
def withLockEx : WithLock := ⟨handleTX, 0⟩

/-- A concrete `WaitLock` SyncOp. -/
def opX : SyncOp := SyncOp.waitLock ⟨⟨lockTX, [(0, 1)]⟩⟩

/-- A second, distinct `WaitLock` SyncOp. -/
def opY : SyncOp := SyncOp.waitLock ⟨⟨lockTX, [(0, 2)]⟩⟩

/-- A third, distinct `WaitLock` SyncOp. -/
def opZ : SyncOp := SyncOp.waitLock ⟨⟨lockTX, [(0, 3)]⟩⟩

/-- A concrete `WithLock` SyncOp. -/
def opW : SyncOp := SyncOp.withLock withLockEx

/-- The spec's merge example `[{A:[x,y]}, {A:[y,z]}]` with `A` keyed 0. -/
def exMergeArgs : List SyncMap := [[(0, [opX, opY])], [(0, [opY, opZ])]]

/-- Two maps whose key 5 mixes a WaitLock with a WithLock. -/
def exConflict5 : List SyncMap := [[(5, [opX])], [(5, [opW])]]

/-- Two maps whose key 9 mixes a WaitLock with a WithLock. -/
def exConflict9 : List SyncMap := [[(9, [opX])], [(9, [opW])]]

/-- A streaming op whose `function` has the single axis `(t)` while its
`target` has the two axes `(t, x)`. -/
def sdT_TX : SyncData :=
  { dim := dimT, size := 2, function := fnT, fetch := some 3, ifetch := some 4,
    fcond := some 1, tstore := some 9, target := some fnTX }

/-- A streaming op over the two axes `(t, x)` with every index field set. -/
def sdTX : SyncData :=
  { dim := dimT, size := 2, function := fnTX, fetch := some 3, ifetch := some 4,
    fcond := some 1, pfetch := some 5, pcond := some 6, target := some fnTX,
    tstore := some 9 }

/-- An entry point whose parameters include a communicator. -/
def entryEx : EntryFunction :=
  ⟨[Param.plain "u", Param.commObj "comm"], [Stmt.call "kernel0" []]⟩

/-- An entry point without a communicator parameter. -/
def entryNoComm : EntryFunction := ⟨[Param.plain "u"], []⟩

/-- Iteration kwargs with a schedule, a chunk size and a thread count. -/
def kwEx : IterKwargs :=
  { schedule := some "static", chunk_size := ChunkSize.val 4, nthreads := some "nt19" }

/-- Iteration kwargs exercising every device-relevant field. -/
def kwDev : IterKwargs :=
  { parallel := true, ncollapse := some 3, schedule := some "static",
    chunk_size := ChunkSize.val 2, reduction := some [RedTarget.scalar "acc0"] }

/-- The spec's reduction example: a scalar target and an array target
indexed `[0, j]` on axes of extent `(1, 50)`. -/
def redEx : List RedTarget :=
  [RedTarget.scalar "s0",
   RedTarget.indexed "name" [(RedIndex.num 0, "1"), (RedIndex.sym "j", "50")]]

/-- Iteration kwargs carrying the reduction example. -/
def kwRed : IterKwargs := { reduction := some redEx }

/-!
Helper lemmas.
-/

/-- In the zip of a list with its image under `f`, the second component of
every pair is `f` of the first. -/
theorem mem_zip_map {α β : Type} (f : α → β) :
    ∀ (l : List α) (d : α) (m : β), (d, m) ∈ l.zip (l.map f) → m = f d := by
  intro l
  induction l with
  | nil => intro d m h; cases h
  | cons x xs ih =>
    intro d m h
    simp only [List.map_cons, List.zip_cons_cons, List.mem_cons, Prod.mk.injEq] at h
    rcases h with ⟨rfl, rfl⟩ | h
    · rfl
    · exact ih d m h

/-- Membership in `filter_ordered_aux`: an element is kept iff it occurs
in the list and is not already seen. -/
theorem filter_ordered_aux_mem {α : Type} [DecidableEq α] (a : α) :
    ∀ (l seen : List α), a ∈ filter_ordered_aux seen l ↔ a ∈ l ∧ a ∉ seen := by
  intro l
  induction l with
  | nil => intro seen; simp [filter_ordered_aux]
  | cons x xs ih =>
    intro seen
    simp only [filter_ordered_aux]
    split
    · rename_i hx
      rw [ih seen]
      simp only [List.mem_cons]
      constructor
      · rintro ⟨h1, h2⟩; exact ⟨Or.inr h1, h2⟩
      · rintro ⟨h1 | h1, h2⟩
        · exact absurd (h1 ▸ hx) h2
        · exact ⟨h1, h2⟩
    · rename_i hx
      simp only [List.mem_cons, ih (x :: seen)]
      constructor
      · rintro (rfl | ⟨h1, h2⟩)
        · exact ⟨Or.inl rfl, hx⟩
        · exact ⟨Or.inr h1, fun hs => h2 (Or.inr hs)⟩
      · rintro ⟨h1 | h1, h2⟩
        · exact Or.inl h1
        · by_cases hax : a = x
          · exact Or.inl hax
          · exact Or.inr ⟨h1, by simp [List.mem_cons, hax, h2]⟩

/-- `filter_ordered` preserves membership. -/
theorem filter_ordered_mem {α : Type} [DecidableEq α] (a : α) (l : List α) :
    a ∈ filter_ordered l ↔ a ∈ l := by
  simp [filter_ordered, filter_ordered_aux_mem]

/-- `filter_ordered_aux` yields duplicate-free lists. -/
theorem filter_ordered_aux_nodup {α : Type} [DecidableEq α] :
    ∀ (l seen : List α), (filter_ordered_aux seen l).Nodup := by
  intro l
  induction l with
  | nil => intro seen; simp [filter_ordered_aux]
  | cons x xs ih =>
    intro seen
    simp only [filter_ordered_aux]
    split
    · exact ih seen
    · refine List.nodup_cons.mpr ⟨?_, ih (x :: seen)⟩
      intro hmem
      have := (filter_ordered_aux_mem x xs (x :: seen)).mp hmem
      exact this.2 (List.mem_cons_self x seen)

/-- `filter_ordered` yields a duplicate-free list. -/
theorem filter_ordered_nodup {α : Type} [DecidableEq α] (l : List α) :
    (filter_ordered l).Nodup :=
  filter_ordered_aux_nodup l []

/-- `filter_ordered_aux` is a sublist of its input: order is preserved
and elements are only dropped, never reordered. -/
theorem filter_ordered_aux_sublist {α : Type} [DecidableEq α] :
    ∀ (l seen : List α), (filter_ordered_aux seen l).Sublist l := by
  intro l
  induction l with
  | nil => intro seen; simp [filter_ordered_aux]
  | cons x xs ih =>
    intro seen
    simp only [filter_ordered_aux]
    split
    · exact (ih seen).cons x
    · exact (ih (x :: seen)).cons₂ x

/-- `filter_ordered` is a sublist of its input. -/
theorem filter_ordered_sublist {α : Type} [DecidableEq α] (l : List α) :
    (filter_ordered l).Sublist l :=
  filter_ordered_aux_sublist l []

/-- A filtered list is non-empty exactly when some element satisfies the
predicate. -/
theorem filter_isEmpty_eq_false {α : Type} (p : α → Bool) (l : List α) :
    (l.filter p).isEmpty = false ↔ ∃ a ∈ l, p a = true := by
  induction l with
  | nil => simp
  | cons x xs ih =>
    by_cases hx : p x = true
    · simp [List.filter_cons, hx]
    · simp only [Bool.not_eq_true] at hx
      simp [List.filter_cons, hx, ih]

/-- The validation test holds exactly when the sequence contains both a
WaitLock and a WithLock op. -/
theorem hasLockConflict_iff (v : List SyncOp) :
    hasLockConflict v = true ↔
      (∃ o ∈ v, SyncOp.is_WaitLock o = true) ∧ (∃ o ∈ v, SyncOp.is_WithLock o = true) := by
  simp only [hasLockConflict, Bool.and_eq_true, Bool.not_eq_true']
  rw [filter_isEmpty_eq_false, filter_isEmpty_eq_false]

/-- A key with a binding is among the keys. -/
theorem lookupMap_some_mem_keys :
    ∀ (m : SyncMap) (k : Nat) (v : List SyncOp),
      lookupMap m k = some v → k ∈ mapKeys m := by
  intro m
  induction m with
  | nil => intro k v h; simp [lookupMap] at h
  | cons p ps ih =>
    intro k v h
    simp only [lookupMap] at h
    simp only [mapKeys, List.map_cons, List.mem_cons]
    split at h
    · rename_i he; exact Or.inl he.symm
    · exact Or.inr (ih k v h)

/-- A key among the keys has a binding. -/
theorem lookupMap_isSome_of_mem_keys :
    ∀ (m : SyncMap) (k : Nat), k ∈ mapKeys m → ∃ v, lookupMap m k = some v := by
  intro m
  induction m with
  | nil => intro k h; simp [mapKeys] at h
  | cons p ps ih =>
    intro k h
    simp only [mapKeys, List.map_cons, List.mem_cons] at h
    simp only [lookupMap]
    by_cases he : p.1 = k
    · exact ⟨p.2, by simp [he]⟩
    · rcases h with h | h
      · exact absurd h.symm he
      · rcases ih k h with ⟨v, hv⟩
        exact ⟨v, by simp [he, hv]⟩

/-- A key not among the keys has no binding. -/
theorem lookupMap_eq_none_of_not_mem_keys :
    ∀ (m : SyncMap) (k : Nat), k ∉ mapKeys m → lookupMap m k = none := by
  intro m
  induction m with
  | nil => intro k _; rfl
  | cons p ps ih =>
    intro k h
    simp only [mapKeys, List.map_cons, List.mem_cons, not_or] at h
    simp only [lookupMap]
    rw [if_neg (fun he => h.1 he.symm)]
    exact ih k h.2

/-- Lookup through an append of association lists. -/
theorem lookupMap_append (m1 m2 : SyncMap) (k : Nat) :
    lookupMap (m1 ++ m2) k =
      match lookupMap m1 k with
      | some v => some v
      | none => lookupMap m2 k := by
  induction m1 with
  | nil => simp [lookupMap]
  | cons p ps ih =>
    simp only [List.cons_append, lookupMap]
    split
    · rfl
    · exact ih

/-- Lookup through the in-place extension of one key's binding. -/
theorem lookupMap_mapUpdate (acc : SyncMap) (k : Nat) (v : List SyncOp) (k2 : Nat) :
    lookupMap (acc.map (fun p => if p.1 = k then (p.1, p.2 ++ v) else p)) k2 =
      if k2 = k then (lookupMap acc k).map (fun w => w ++ v) else lookupMap acc k2 := by
  induction acc with
  | nil => simp [lookupMap]
  | cons p ps ih =>
    by_cases h1 : p.1 = k
    · simp only [List.map_cons, if_pos h1]
      by_cases h2 : k2 = k
      · subst h2
        simp [lookupMap, h1, ih]
      · have hp : ¬ p.1 = k2 := fun he => h2 (he.symm.trans h1)
        simp [lookupMap, hp, ih, h2]
    · simp only [List.map_cons, if_neg h1]
      by_cases h2 : k2 = k
      · subst h2
        simp [lookupMap, h1, ih]
      · simp [lookupMap, ih, h2]

/-- Lookup after one `syncs[k].extend(v)` step. -/
theorem mergeInto_lookup (acc : SyncMap) (k : Nat) (v : List SyncOp) (k2 : Nat) :
    lookupMap (mergeInto acc k v) k2 =
      if k2 = k then some ((lookupMap acc k).getD [] ++ v) else lookupMap acc k2 := by
  unfold mergeInto
  split
  · rename_i hk
    rw [lookupMap_mapUpdate]
    by_cases h2 : k2 = k
    · rcases lookupMap_isSome_of_mem_keys acc k hk with ⟨w, hw⟩
      simp [h2, hw]
    · simp [h2]
  · rename_i hk
    have hnone : lookupMap acc k = none := lookupMap_eq_none_of_not_mem_keys acc k hk
    rw [lookupMap_append]
    by_cases h2 : k2 = k
    · subst h2
      simp [hnone, lookupMap]
    · cases hv : lookupMap acc k2 with
      | some w => simp [hv, h2]
      | none =>
        have hne : ¬ k = k2 := fun he => h2 he.symm
        simp [hv, h2, lookupMap, hne]

/-- Lookup after merging one whole input map, provided that map has
duplicate-free keys (as a Python dict does). -/
theorem mergeOne_lookup :
    ∀ (m acc : SyncMap) (k : Nat), (mapKeys m).Nodup →
      lookupMap (mergeOne acc m) k =
        match lookupMap m k with
        | none => lookupMap acc k
        | some v => some ((lookupMap acc k).getD [] ++ v) := by
  intro m
  induction m with
  | nil => intro acc k _; simp [mergeOne, lookupMap]
  | cons p ps ih =>
    intro acc k h
    have hkeys : mapKeys (p :: ps) = p.1 :: mapKeys ps := rfl
    rw [hkeys] at h
    have hp : p.1 ∉ mapKeys ps := (List.nodup_cons.mp h).1
    have hnd : (mapKeys ps).Nodup := (List.nodup_cons.mp h).2
    have hstep : mergeOne acc (p :: ps) = mergeOne (mergeInto acc p.1 p.2) ps := rfl
    rw [hstep, ih (mergeInto acc p.1 p.2) k hnd]
    cases hm : lookupMap ps k with
    | some v =>
      have hk : k ∈ mapKeys ps := lookupMap_some_mem_keys ps k v hm
      have hne : ¬ k = p.1 := fun he => hp (he ▸ hk)
      rw [mergeInto_lookup, if_neg hne]
      have hne2 : ¬ p.1 = k := fun he => hne he.symm
      simp [lookupMap, hm, hne2]
    | none =>
      rw [mergeInto_lookup]
      by_cases h2 : k = p.1
      · simp [lookupMap, h2]
      · have h3 : ¬ p.1 = k := fun he => h2 he.symm
        simp [lookupMap, h2, hm, h3]

/-- If no input map binds the key, the joined per-map contributions are
empty. -/
theorem join_eq_nil_of_allNone (k : Nat) :
    ∀ (ms : List SyncMap), (∀ m ∈ ms, (lookupMap m k).isNone = true) →
      ((ms.map (fun m => (lookupMap m k).getD [])).flatten) = [] := by
  intro ms
  induction ms with
  | nil => intro _; rfl
  | cons m rest ih =>
    intro h
    have hm : (lookupMap m k).isNone = true := h m (List.mem_cons_self m rest)
    have hrest := ih (fun x hx => h x (List.mem_cons_of_mem m hx))
    cases hv : lookupMap m k with
    | some w => rw [hv] at hm; simp at hm
    | none => simp [hv, hrest]

/-- Lookup after folding every input map into the accumulator. -/
theorem foldl_mergeOne_lookup :
    ∀ (args : List SyncMap) (acc : SyncMap) (k : Nat),
      (∀ m ∈ args, (mapKeys m).Nodup) →
      lookupMap (args.foldl mergeOne acc) k =
        if args.all (fun m => (lookupMap m k).isNone) then lookupMap acc k
        else some ((lookupMap acc k).getD []
               ++ ((args.map (fun m => (lookupMap m k).getD [])).flatten)) := by
  intro args
  induction args with
  | nil => intro acc k _; simp
  | cons m ms ih =>
    intro acc k h
    rw [List.foldl_cons,
        ih (mergeOne acc m) k (fun x hx => h x (List.mem_cons_of_mem m hx)),
        mergeOne_lookup m acc k (h m (List.mem_cons_self m ms))]
    cases hm : lookupMap m k with
    | none =>
      simp only [List.all_cons, hm, Option.isNone_none, Bool.true_and,
                 List.map_cons, Option.getD_none, List.flatten_cons, List.nil_append]
    | some v =>
      simp only [List.all_cons, hm, Option.isNone_some, Bool.false_and, if_false,
                 List.map_cons, Option.getD_some, List.flatten_cons]
      by_cases hall : ms.all (fun m => (lookupMap m k).isNone) = true
      · have hjoin := join_eq_nil_of_allNone k ms (by
          intro x hx
          exact (List.all_eq_true.mp hall) x hx)
        simp [hall, hjoin]
      · simp only [Bool.not_eq_true] at hall
        simp [hall, List.append_assoc]

/-- Lookup in the merged map built by `normalize_syncs` for two or more
inputs: the concatenation, in input order, of every input's ops for the
key. -/
theorem mergeMaps_lookup (args : List SyncMap) (k : Nat)
    (h : ∀ m ∈ args, (mapKeys m).Nodup) :
    lookupMap (mergeMaps args) k =
      if args.all (fun m => (lookupMap m k).isNone) then none
      else some ((args.map (fun m => (lookupMap m k).getD [])).flatten) := by
  unfold mergeMaps
  rw [foldl_mergeOne_lookup args [] k h]
  rfl

/-- Lookup commutes with the per-key deduplication step. -/
theorem lookupMap_dedup (m : SyncMap) (k : Nat) :
    lookupMap (m.map (fun p => (p.1, filter_ordered p.2))) k =
      (lookupMap m k).map filter_ordered := by
  induction m with
  | nil => simp [lookupMap]
  | cons p ps ih =>
    by_cases hp : p.1 = k
    · simp [lookupMap, hp]
    · simp [lookupMap, hp, ih]

/-- C1 (amended): for every collection of two or more input sync maps,
`normalize_syncs` fails if and only if some key's merged op sequence
contains both a WaitLock op and a WithLock op; the error it raises is the
fixed message "Incompatible SyncOps", which does not name the offending
key; and for every collection in which no key mixes the two lock
variants, `normalize_syncs` returns normally. -/
theorem normalize_syncs_conflict_char (args : List SyncMap) (hlen : 2 ≤ args.length) :
    ((∃ msg, normalize_syncs args = NormResult.err msg) ↔
      ∃ p ∈ mergeMaps args,
        (∃ o ∈ p.2, SyncOp.is_WaitLock o = true) ∧
        (∃ o ∈ p.2, SyncOp.is_WithLock o = true)) ∧
    (∀ msg, normalize_syncs args = NormResult.err msg → msg = "Incompatible SyncOps") ∧
    ((¬ ∃ p ∈ mergeMaps args,
        (∃ o ∈ p.2, SyncOp.is_WaitLock o = true) ∧
        (∃ o ∈ p.2, SyncOp.is_WithLock o = true)) →
      ∃ m, normalize_syncs args = NormResult.ok m) := by
  rcases args with _ | ⟨a, rest1⟩
  · simp at hlen
  rcases rest1 with _ | ⟨b, rest⟩
  · simp at hlen
  have hnorm : normalize_syncs (a :: b :: rest) =
      if ((mergeMaps (a :: b :: rest)).map (fun p => (p.1, filter_ordered p.2))).any
           (fun p => hasLockConflict p.2)
      then NormResult.err "Incompatible SyncOps"
      else NormResult.ok
             ((mergeMaps (a :: b :: rest)).map (fun p => (p.1, filter_ordered p.2))) := rfl
  have hiff : (((mergeMaps (a :: b :: rest)).map (fun p => (p.1, filter_ordered p.2))).any
        (fun p => hasLockConflict p.2) = true) ↔
      ∃ p ∈ mergeMaps (a :: b :: rest),
        (∃ o ∈ p.2, SyncOp.is_WaitLock o = true) ∧
        (∃ o ∈ p.2, SyncOp.is_WithLock o = true) := by
    rw [List.any_eq_true]
    constructor
    · rintro ⟨q, hq, hc⟩
      rcases List.mem_map.mp hq with ⟨p, hp, rfl⟩
      have hcc := (hasLockConflict_iff _).mp hc
      refine ⟨p, hp, ?_, ?_⟩
      · rcases hcc.1 with ⟨o, ho, hw⟩
        exact ⟨o, (filter_ordered_mem o p.2).mp ho, hw⟩
      · rcases hcc.2 with ⟨o, ho, hw⟩
        exact ⟨o, (filter_ordered_mem o p.2).mp ho, hw⟩
    · rintro ⟨p, hp, ⟨o1, ho1, hw1⟩, ⟨o2, ho2, hw2⟩⟩
      refine ⟨(p.1, filter_ordered p.2), List.mem_map.mpr ⟨p, hp, rfl⟩, ?_⟩
      exact (hasLockConflict_iff _).mpr
        ⟨⟨o1, (filter_ordered_mem o1 p.2).mpr ho1, hw1⟩,
         ⟨o2, (filter_ordered_mem o2 p.2).mpr ho2, hw2⟩⟩
  by_cases hc : ((mergeMaps (a :: b :: rest)).map (fun p => (p.1, filter_ordered p.2))).any
      (fun p => hasLockConflict p.2) = true
  · refine ⟨Iff.intro (fun _ => hiff.mp hc)
      (fun _ => ⟨"Incompatible SyncOps", by rw [hnorm, if_pos hc]⟩), ?_, ?_⟩
    · intro msg h
      rw [hnorm, if_pos hc] at h
      injection h with h2
      exact h2.symm
    · intro hno
      exact absurd (hiff.mp hc) hno
  · refine ⟨Iff.intro ?_ (fun hr => absurd (hiff.mpr hr) hc), ?_, ?_⟩
    · rintro ⟨msg, h⟩
      rw [hnorm, if_neg hc] at h
      simp at h
    · intro msg h
      rw [hnorm, if_neg hc] at h
      simp at h
    · intro _
      exact ⟨_, by rw [hnorm, if_neg hc]⟩

/-- C1 counterexample: two collections whose only offending keys differ
(5 versus 9) raise the identical fixed error, and no character of the
key's decimal name occurs in the message — the error raised by
`normalize_syncs` does not name the offending key. -/
theorem normalize_syncs_conflict_cex :
    normalize_syncs exConflict5 = NormResult.err "Incompatible SyncOps" ∧
    normalize_syncs exConflict9 = NormResult.err "Incompatible SyncOps" ∧
    ('5' ∈ "Incompatible SyncOps".data → False) ∧
    ('9' ∈ "Incompatible SyncOps".data → False) := by
  decide

/-- Witness for `normalize_syncs_conflict_char` at the concrete conflicting
collection `exConflict5`. -/
theorem normalize_syncs_conflict_char_witness :
    2 ≤ exConflict5.length ∧ (∃ msg, normalize_syncs exConflict5 = NormResult.err msg) :=
  ⟨by decide,
   (normalize_syncs_conflict_char exConflict5 (by decide)).1.mpr (by decide)⟩

/-- C2: `normalize_syncs` of zero maps yields the bare return; of one map
the very map unchanged; `filter_ordered` keeps the first occurrence of
each op in first-seen order (sublist, duplicate-free, same members); and
for two or more maps with dict-like (duplicate-free) keys, any returned
map binds each key to the deduplicated concatenation, in input order, of
that key's op sequences across the inputs. -/
theorem normalize_syncs_merge_char :
    normalize_syncs [] = NormResult.noneRes ∧
    (∀ m : SyncMap, normalize_syncs [m] = NormResult.ok m) ∧
    (∀ l : List SyncOp,
      (filter_ordered l).Sublist l ∧ (filter_ordered l).Nodup ∧
      (∀ o : SyncOp, o ∈ filter_ordered l ↔ o ∈ l)) ∧
    (∀ (args : List SyncMap), 2 ≤ args.length → (∀ m ∈ args, (mapKeys m).Nodup) →
      ∀ res, normalize_syncs args = NormResult.ok res →
        ∀ k, lookupMap res k =
          if args.all (fun m => (lookupMap m k).isNone) then none
          else some (filter_ordered
            ((args.map (fun m => (lookupMap m k).getD [])).flatten))) := by
  refine ⟨rfl, fun m => rfl,
    fun l => ⟨filter_ordered_sublist l, filter_ordered_nodup l,
              fun o => filter_ordered_mem o l⟩, ?_⟩
  intro args hlen hnd res hres k
  rcases args with _ | ⟨a, rest1⟩
  · simp at hlen
  rcases rest1 with _ | ⟨b, rest⟩
  · simp at hlen
  have hnorm : normalize_syncs (a :: b :: rest) =
      if ((mergeMaps (a :: b :: rest)).map (fun p => (p.1, filter_ordered p.2))).any
           (fun p => hasLockConflict p.2)
      then NormResult.err "Incompatible SyncOps"
      else NormResult.ok
             ((mergeMaps (a :: b :: rest)).map (fun p => (p.1, filter_ordered p.2))) := rfl
  rw [hnorm] at hres
  by_cases hc : ((mergeMaps (a :: b :: rest)).map (fun p => (p.1, filter_ordered p.2))).any
      (fun p => hasLockConflict p.2) = true
  · rw [if_pos hc] at hres
    simp at hres
  · rw [if_neg hc] at hres
    injection hres with hres2
    subst hres2
    rw [lookupMap_dedup, mergeMaps_lookup _ k hnd]
    by_cases hall : (a :: b :: rest).all (fun m => (lookupMap m k).isNone) = true
    · simp [hall]
    · simp only [Bool.not_eq_true] at hall
      simp [hall]

/-- Witness for `normalize_syncs_merge_char` at the spec's merge example
`[{A:[x,y]}, {A:[y,z]}]`, whose normalization is `{A:[x,y,z]}`. -/
theorem normalize_syncs_merge_char_witness :
    2 ≤ exMergeArgs.length ∧ (∀ m ∈ exMergeArgs, (mapKeys m).Nodup) ∧
    normalize_syncs exMergeArgs = NormResult.ok [(0, [opX, opY, opZ])] ∧
    lookupMap [(0, [opX, opY, opZ])] 0 =
      (if exMergeArgs.all (fun m => (lookupMap m 0).isNone) then none
       else some (filter_ordered
         ((exMergeArgs.map (fun m => (lookupMap m 0).getD [])).flatten))) :=
  ⟨by decide, by decide, by decide,
   normalize_syncs_merge_char.2.2.2 exMergeArgs (by decide) (by decide)
     [(0, [opX, opY, opZ])] (by decide) 0⟩

/-- C3: for every WithLock op, its mask has exactly one entry per axis of
the target object's dimensions; an axis whose root dimension belongs to
the lock's guarded dimensions contributes the pair of that axis's index
in the handle with the op's size, which equals 1, and every other axis
contributes the sentinel FULL. -/
theorem withLock_imask_char (op : WithLock) :
    op.size = 1 ∧
    (op.imask).length = op.target.dimensions.length ∧
    (∀ d m, (d, m) ∈ op.target.dimensions.zip op.imask →
      (d.rootId ∈ op.lock.lockedDimensions →
        m = MaskEntry.idx (op.handle.indices.lookup d.id) op.size) ∧
      (d.rootId ∉ op.lock.lockedDimensions → m = MaskEntry.full)) := by
  refine ⟨rfl, by simp [WithLock.imask], ?_⟩
  intro d m hm
  rw [WithLock.imask] at hm
  have hfd := mem_zip_map _ op.target.dimensions d m hm
  constructor
  · intro hd; rw [hfd]; exact if_pos hd
  · intro hd; rw [hfd]; exact if_neg hd

/-- Witness for `withLock_imask_char` at a concrete WithLock over the
axes `(t, x)` with the root of `t` locked. -/
theorem withLock_imask_char_witness :
    ((dimT, MaskEntry.idx (some 7) withLockEx.size) ∈
      withLockEx.target.dimensions.zip withLockEx.imask) ∧
    dimT.rootId ∈ withLockEx.lock.lockedDimensions ∧
    MaskEntry.idx (some 7) withLockEx.size =
      MaskEntry.idx (withLockEx.handle.indices.lookup dimT.id) withLockEx.size :=
  ⟨by decide, by decide,
   ((withLock_imask_char withLockEx).2.2 dimT
      (MaskEntry.idx (some 7) withLockEx.size) (by decide)).1 (by decide)⟩

/-- C4 counterexample: a FetchUpdate with advancing dimension `t` whose
target has the two axes `(t, x)`, but whose mask — computed over the op's
`function.dimensions`, not the target's — has a single entry rather than
the claimed `[(tstore, size), FULL]`. -/
theorem syncdata_imask_cex :
    sdT_TX.dim = dimT ∧
    sdT_TX.target = some fnTX ∧
    fnTX.dimensions = [dimT, dimX] ∧
    FetchUpdate.imask sdT_TX = [MaskEntry.idx sdT_TX.tstore sdT_TX.size] ∧
    (FetchUpdate.imask sdT_TX =
      [MaskEntry.idx sdT_TX.tstore sdT_TX.size, MaskEntry.full] → False) := by
  decide

/-- C4 (amended): for every FetchUpdate, PrefetchUpdate or Delete op with
advancing dimension `t` whose `function` — the unbuffered object whose
axes the mask ranges over — has the two axes `(t, x)`, the mask is
`[(tstore, size), FULL]` for FetchUpdate and PrefetchUpdate and
`[(fetch, size), FULL]` for Delete; the axis whose root matches `t`'s
root carries the indexed entry, the other axis is FULL, and swapping
which axis is the root-matching one changes only the position of the
indexed entry, not its value. -/
theorem syncdata_imask_two_axes (s : SyncData) (d1 d2 : Dimension)
    (hdims : s.function.dimensions = [d1, d2]) :
    ((d1.rootId = s.dim.rootId ∧ ¬ d2.rootId = s.dim.rootId →
      FetchUpdate.imask s = [MaskEntry.idx s.tstore s.size, MaskEntry.full] ∧
      PrefetchUpdate.imask s = [MaskEntry.idx s.tstore s.size, MaskEntry.full] ∧
      Delete.imask s = [MaskEntry.idx s.fetch s.size, MaskEntry.full]) ∧
     (d2.rootId = s.dim.rootId ∧ ¬ d1.rootId = s.dim.rootId →
      FetchUpdate.imask s = [MaskEntry.full, MaskEntry.idx s.tstore s.size] ∧
      PrefetchUpdate.imask s = [MaskEntry.full, MaskEntry.idx s.tstore s.size] ∧
      Delete.imask s = [MaskEntry.full, MaskEntry.idx s.fetch s.size])) := by
  constructor
  · rintro ⟨h1, h2⟩
    simp [FetchUpdate.imask, PrefetchUpdate.imask, Delete.imask,
          SyncData.dimensions, hdims, h1, h2]
  · rintro ⟨h1, h2⟩
    simp [FetchUpdate.imask, PrefetchUpdate.imask, Delete.imask,
          SyncData.dimensions, hdims, h1, h2]

/-- Witness for `syncdata_imask_two_axes` at a concrete op over `(t, x)`. -/
theorem syncdata_imask_two_axes_witness :
    sdTX.function.dimensions = [dimT, dimX] ∧
    (dimT.rootId = sdTX.dim.rootId ∧ ¬ dimX.rootId = sdTX.dim.rootId) ∧
    FetchUpdate.imask sdTX = [MaskEntry.idx sdTX.tstore sdTX.size, MaskEntry.full] :=
  ⟨by decide, by decide,
   ((syncdata_imask_two_axes sdTX dimT dimX (by decide)).1 (by decide)).1⟩

/-- C5: every FetchPrefetch op exposes three independently queryable masks
over the same axes with the root-matching rule: `iimask` pairs `ifetch`
with the op's size, `pimask` pairs `fetch`, and the default `imask` pairs
`pfetch`; every axis whose root does not match the advancing dimension's
root is FULL. -/
theorem fetchPrefetch_three_masks (s : SyncData) :
    (FetchPrefetch.iimask s).length = s.dimensions.length ∧
    (FetchPrefetch.pimask s).length = s.dimensions.length ∧
    (FetchPrefetch.imask s).length = s.dimensions.length ∧
    (∀ d m,
      ((d, m) ∈ s.dimensions.zip (FetchPrefetch.iimask s) →
        m = if d.rootId = s.dim.rootId then MaskEntry.idx s.ifetch s.size
            else MaskEntry.full) ∧
      ((d, m) ∈ s.dimensions.zip (FetchPrefetch.pimask s) →
        m = if d.rootId = s.dim.rootId then MaskEntry.idx s.fetch s.size
            else MaskEntry.full) ∧
      ((d, m) ∈ s.dimensions.zip (FetchPrefetch.imask s) →
        m = if d.rootId = s.dim.rootId then MaskEntry.idx s.pfetch s.size
            else MaskEntry.full)) := by
  refine ⟨by simp [FetchPrefetch.iimask], by simp [FetchPrefetch.pimask],
          by simp [FetchPrefetch.imask], ?_⟩
  intro d m
  exact ⟨fun h => mem_zip_map _ _ d m h,
         fun h => mem_zip_map _ _ d m h,
         fun h => mem_zip_map _ _ d m h⟩

/-- Witness for `fetchPrefetch_three_masks` at a concrete op over `(t, x)`:
the initialization-side mask pairs `ifetch` on the root-matching axis. -/
theorem fetchPrefetch_three_masks_witness :
    ((dimT, MaskEntry.idx (some 4) 2) ∈
      sdTX.dimensions.zip (FetchPrefetch.iimask sdTX)) ∧
    MaskEntry.idx (some 4) 2 =
      (if dimT.rootId = sdTX.dim.rootId then MaskEntry.idx sdTX.ifetch sdTX.size
       else MaskEntry.full) :=
  ⟨by decide,
   ((fetchPrefetch_three_masks sdTX).2.2.2 dimT (MaskEntry.idx (some 4) 2)).1 (by decide)⟩

/-- The characters of an appended string are the appended characters. -/
theorem string_data_append (a b : String) : (a ++ b).data = a.data ++ b.data := rfl

/-- Appending to a string of at least 9 characters does not change
whether it is a schedule clause. -/
theorem isScheduleClause_append (p x : String) (h : 9 ≤ p.data.length) :
    isScheduleClause (p ++ x) = isScheduleClause p := by
  unfold isScheduleClause
  rw [string_data_append, List.take_append_eq_append_take,
      Nat.sub_eq_zero_of_le h, List.take_zero, List.append_nil]

/-- Appending preserves a 9-character lower bound on length. -/
theorem nine_le_append (u v : String) (h : 9 ≤ u.data.length) :
    9 ≤ (u ++ v).data.length := by
  rw [string_data_append, List.length_append]
  exact le_trans h (Nat.le_add_right _ _)

/-- Two appended suffixes do not change schedule-clause recognition. -/
theorem isSched_append2 (p x y : String) (h : 9 ≤ p.data.length) :
    isScheduleClause (p ++ x ++ y) = isScheduleClause p := by
  rw [isScheduleClause_append _ y (nine_le_append _ _ h), isScheduleClause_append _ x h]

/-- Four appended suffixes do not change schedule-clause recognition. -/
theorem isSched_append4 (p a b c d : String) (h : 9 ≤ p.data.length) :
    isScheduleClause (p ++ a ++ b ++ c ++ d) = isScheduleClause p := by
  rw [isScheduleClause_append _ d
        (nine_le_append _ _ (nine_le_append _ _ (nine_le_append _ _ h))),
      isScheduleClause_append _ c (nine_le_append _ _ (nine_le_append _ _ h)),
      isScheduleClause_append _ b (nine_le_append _ _ h),
      isScheduleClause_append _ a h]

/-- A collapse clause is never a schedule clause. -/
theorem isSched_collapse_clause (x y : String) :
    isScheduleClause ("collapse(" ++ x ++ y) = false := by
  rw [isSched_append2 _ x y (by decide)]; decide

/-- A thread-count clause is never a schedule clause. -/
theorem isSched_numthreads_clause (x y : String) :
    isScheduleClause ("num_threads(" ++ x ++ y) = false := by
  rw [isSched_append2 _ x y (by decide)]; decide

/-- A reduction clause is never a schedule clause. -/
theorem isSched_reduction_clause (x y : String) :
    isScheduleClause ("reduction(+:" ++ x ++ y) = false := by
  rw [isSched_append2 _ x y (by decide)]; decide

/-- The emitted schedule clause is recognized as such. -/
theorem isSched_schedule_clause (a b : String) :
    isScheduleClause ("schedule(" ++ a ++ "," ++ b ++ ")") = true := by
  rw [isSched_append4 _ a "," b ")" (by decide)]; decide

/-- Disabling chunking removes exactly the schedule clause from the
clause list and leaves every other clause unchanged. -/
theorem make_clauses_chunk_disabled (kw : IterKwargs) :
    OpenMPIteration.make_clauses { kw with chunk_size := ChunkSize.disabled } =
      (OpenMPIteration.make_clauses kw).filter (fun cl => !(isScheduleClause cl)) := by
  cases hcs : kw.chunk_size <;> cases hnt : kw.nthreads <;> cases hr : kw.reduction <;>
    simp [OpenMPIteration.make_clauses, hcs, hnt, hr, List.filter_append,
          isSched_collapse_clause, isSched_numthreads_clause,
          isSched_reduction_clause, isSched_schedule_clause, List.filter_cons] <;>
    split_ifs <;>
    simp [isSched_numthreads_clause, isSched_reduction_clause]

/-- No clause of a chunking-disabled clause list is a schedule clause. -/
theorem no_schedule_in_chunk_disabled (kw : IterKwargs) :
    ∀ cl ∈ OpenMPIteration.make_clauses { kw with chunk_size := ChunkSize.disabled },
      isScheduleClause cl = false := by
  intro cl hcl
  rw [make_clauses_chunk_disabled] at hcl
  have hmem := List.of_mem_filter hcl
  simpa using hmem

/-- C6 counterexample: at collapse, schedule and chunk_size unset and
parallel=False, the emitted header carries the `omp` dialect prefix —
it is "omp for collapse(1) schedule(dynamic,1)", not the claimed
"for collapse(1) schedule(dynamic,1)". -/
theorem openmp_header_default_cex :
    OpenMPIteration.make_header {} = "omp for collapse(1) schedule(dynamic,1)" ∧
    (OpenMPIteration.make_header {} = "for collapse(1) schedule(dynamic,1)" → False) := by
  decide

/-- C6 (amended): with collapse, schedule and chunk_size unset and
parallel=False, the emitted directive header is exactly
"omp for collapse(1) schedule(dynamic,1)"; and for every iteration built
with chunk_size=False, the schedule clause is entirely absent from the
header — the clause list equals the same inputs' clause list with the
schedule clause filtered out and contains no schedule clause — while the
other clauses are unaffected. -/
theorem openmp_header_char :
    OpenMPIteration.make_header {} = "omp for collapse(1) schedule(dynamic,1)" ∧
    OpenMPIteration.make_header { chunk_size := ChunkSize.disabled } = "omp for collapse(1)" ∧
    (∀ kw : IterKwargs,
      OpenMPIteration.make_clauses { kw with chunk_size := ChunkSize.disabled } =
        (OpenMPIteration.make_clauses kw).filter (fun cl => !(isScheduleClause cl)) ∧
      (∀ cl ∈ OpenMPIteration.make_clauses { kw with chunk_size := ChunkSize.disabled },
        isScheduleClause cl = false)) :=
  ⟨by decide, by decide,
   fun kw => ⟨make_clauses_chunk_disabled kw, no_schedule_in_chunk_disabled kw⟩⟩

/-- Witness for `openmp_header_char` at concrete kwargs with a schedule,
chunk size and thread count supplied. -/
theorem openmp_header_char_witness :
    ("collapse(1)" ∈ OpenMPIteration.make_clauses
        { kwEx with chunk_size := ChunkSize.disabled }) ∧
    isScheduleClause "collapse(1)" = false :=
  ⟨by decide, (openmp_header_char.2.2 kwEx).2 "collapse(1)" (by decide)⟩

/-- C7: for every non-empty reduction-target list, the clause list ends
with the reduction clause under the + operator with one comma-joined
argument per target; a scalar target is emitted by name; an array-element
target contributes per axis the literal `[k]` for a constant index `k`
and the full range `[0:extent]` for a non-constant index. -/
theorem reduction_clause_char (kw : IterKwargs) (l : List RedTarget)
    (hr : kw.reduction = some l) (hne : l ≠ []) :
    (∃ pre, OpenMPIteration.make_clauses kw =
        pre ++ ["reduction(+:" ++ String.intercalate "," (l.map redArg) ++ ")"]) ∧
    (l.map redArg).length = l.length ∧
    (∀ name, redArg (RedTarget.scalar name) = name) ∧
    (∀ name axes, redArg (RedTarget.indexed name axes) =
        name ++ String.join (axes.map redBound)) ∧
    (∀ k ext, redBound (RedIndex.num k, ext) = "[" ++ toString k ++ "]") ∧
    (∀ s ext, redBound (RedIndex.sym s, ext) = "[0:" ++ ext ++ "]") := by
  refine ⟨?_, by simp, fun name => rfl, fun name axes => rfl,
          fun k ext => rfl, fun s ext => rfl⟩
  have hie : l.isEmpty = false := by
    cases l
    · exact absurd rfl hne
    · rfl
  refine ⟨["collapse(" ++ toString (pyOrNat kw.ncollapse 1) ++ ")"]
      ++ (match kw.chunk_size with
          | ChunkSize.disabled => []
          | c => ["schedule(" ++ pyOrStr kw.schedule "dynamic" ++ ","
                    ++ toString c.orOne ++ ")"])
      ++ (match kw.nthreads with
          | some s => if s.isEmpty then [] else ["num_threads(" ++ s ++ ")"]
          | none => []), ?_⟩
  unfold OpenMPIteration.make_clauses
  rw [hr]
  simp [hie, List.append_assoc]

/-- Witness for `reduction_clause_char` at the spec's reduction example:
the emitted clause is `reduction(+:s0,name[0][0:50])`. -/
theorem reduction_clause_char_witness :
    kwRed.reduction = some redEx ∧ redEx ≠ [] ∧
    (∃ pre, OpenMPIteration.make_clauses kwRed =
        pre ++ ["reduction(+:" ++ String.intercalate "," (redEx.map redArg) ++ ")"]) ∧
    "reduction(+:" ++ String.intercalate "," (redEx.map redArg) ++ ")" =
      "reduction(+:s0,name[0][0:50])" :=
  ⟨rfl, by decide, (reduction_clause_char kwRed redEx rfl (by decide)).1, by decide⟩

/-- C8: the device iteration's header uses the fixed device-offload
team-distribution construct regardless of the parallel flag; its clause
list equals the clause list the host iteration would build from the same
inputs with chunking disabled, equals the spec-side device clause list
(collapse, thread-count, reduction), never contains a schedule clause,
and is unaffected by any supplied schedule or chunk size. -/
theorem device_iteration_char (kw : IterKwargs) (s : Option String) (c : ChunkSize) :
    DeviceOmpIteration.make_construct kw = "omp target teams distribute parallel for" ∧
    DeviceOmpIteration.make_header kw =
      String.intercalate " " ("omp target teams distribute parallel for"
        :: OpenMPIteration.make_clauses { kw with chunk_size := ChunkSize.disabled }) ∧
    DeviceOmpIteration.make_clauses kw =
      OpenMPIteration.make_clauses { kw with chunk_size := ChunkSize.disabled } ∧
    DeviceOmpIteration.make_clauses kw = specDeviceClauses kw ∧
    DeviceOmpIteration.make_clauses { kw with schedule := s, chunk_size := c } =
      DeviceOmpIteration.make_clauses kw ∧
    (∀ cl ∈ DeviceOmpIteration.make_clauses kw, isScheduleClause cl = false) := by
  refine ⟨rfl, rfl, rfl, ?_, ?_, ?_⟩
  · simp [DeviceOmpIteration.make_clauses, OpenMPIteration.make_clauses, specDeviceClauses]
  · simp [DeviceOmpIteration.make_clauses, OpenMPIteration.make_clauses]
  · exact fun cl hcl => no_schedule_in_chunk_disabled kw cl hcl

/-- Witness for `device_iteration_char` at concrete kwargs with parallel
set, a schedule and a chunk size supplied and a reduction present. -/
theorem device_iteration_char_witness :
    ("collapse(3)" ∈ DeviceOmpIteration.make_clauses kwDev) ∧
    isScheduleClause "collapse(3)" = false :=
  ⟨by decide,
   (device_iteration_char kwDev none ChunkSize.unset).2.2.2.2.2 "collapse(3)" (by decide)⟩

/-- C9: the device-affinity initializer prepends the generated setup to
the entry point's original body and reports the device-id parameter back
as an additional parameter; at runtime the setup executes: with an
explicit device id (≠ -1) and no communicator parameter, only the direct
set-device call on the device-id parameter (which holds that id); with
device id -1 and a communicator present, the rank declaration, the
rank-query call, the device-count declaration and the set-device call on
rank mod ngpus; with device id -1 and no communicator, no
device-selection statement at all. -/
theorem device_initialize_char (f : EntryFunction) (devid : Int) :
    (∃ f2, DeviceOmpizer.initialize (IETNode.entry f) =
        (IETNode.entry f2, some deviceIdName) ∧
      f2.parameters = f.parameters ∧
      f2.body = initNode (findComm f.parameters) :: f.body) ∧
    (findComm f.parameters = none → ¬ devid = -1 →
      execStmts devid [initNode (findComm f.parameters)] =
        [Stmt.call "omp_set_default_device" [CArg.expr (CExpr.var deviceIdName)]] ∧
      evalCExpr devid (CExpr.var deviceIdName) = devid) ∧
    (findComm f.parameters = none → devid = -1 →
      execStmts devid [initNode (findComm f.parameters)] = []) ∧
    (∀ comm, findComm f.parameters = some comm → devid = -1 →
      execStmts devid [initNode (findComm f.parameters)] =
        [Stmt.localExpr "rank" (CExpr.lit 0),
         Stmt.call "MPI_Comm_rank" [CArg.comm comm, CArg.byref "rank"],
         Stmt.localExpr "ngpus" (CExpr.callE "omp_get_num_devices" []),
         Stmt.call "omp_set_default_device"
           [CArg.expr (CExpr.mod (CExpr.var "rank") (CExpr.var "ngpus"))]]) := by
  refine ⟨⟨_, rfl, rfl, rfl⟩, ?_, ?_, ?_⟩
  · intro hc hne
    rw [hc]
    refine ⟨?_, by simp [evalCExpr, deviceIdName]⟩
    simp [initNode, initBody, execStmts, evalCond, evalCExpr, deviceIdName, hne]
  · intro hc he
    rw [hc]
    subst he
    simp [initNode, initBody, execStmts, evalCond, evalCExpr, deviceIdName]
  · intro comm hc he
    rw [hc]
    subst he
    simp [initNode, initBody, execStmts, evalCond, evalCExpr, deviceIdName]

/-- Witness for `device_initialize_char` at a concrete entry point whose
parameters include a communicator, with device id -1. -/
theorem device_initialize_char_witness :
    findComm entryEx.parameters = some "comm" ∧
    execStmts (-1) [initNode (findComm entryEx.parameters)] =
      [Stmt.localExpr "rank" (CExpr.lit 0),
       Stmt.call "MPI_Comm_rank" [CArg.comm "comm", CArg.byref "rank"],
       Stmt.localExpr "ngpus" (CExpr.callE "omp_get_num_devices" []),
       Stmt.call "omp_set_default_device"
         [CArg.expr (CExpr.mod (CExpr.var "rank") (CExpr.var "ngpus"))]] :=
  ⟨rfl, (device_initialize_char entryEx (-1)).2.2.2 "comm" rfl rfl⟩

/-- C10: the initializer returns every IR callable that is not the
designated entry point unchanged, and reports no additional parameter. -/
theorem device_initialize_frame (iet : IETNode)
    (h : ∀ f, ¬ iet = IETNode.entry f) :
    DeviceOmpizer.initialize iet = (iet, none) := by
  cases iet with
  | entry f => exact absurd rfl (h f)
  | callable n b => rfl

/-- Witness for `device_initialize_frame` at a concrete non-entry node. -/
theorem device_initialize_frame_witness :
    DeviceOmpizer.initialize (IETNode.callable "kernel0" []) =
      (IETNode.callable "kernel0" [], none) :=
  device_initialize_frame (IETNode.callable "kernel0" [])
    (fun f h => IETNode.noConfusion h)
